import Mathlib

/-!
Shallow embedding of the multi-track-player audio store core
(src/app/src/hooks/audioStore plus the track/recording action modules).
Times are modelled as rationals, JS null as Option, JS arrays as lists.
All definitions are translated directly from the TypeScript source; the
external side effects (persistence writes, per-engine audio calls) either
do not touch the in-memory store or are modelled as explicit command
lists, as noted on each definition.
-/

/-- The recordingState lifecycle field of a recordable track. -/
inductive RecState where
  | idle
  | armed
  | recording
  | stopped
deriving DecidableEq, Repr

/-- AudioTrack from src/app/src/types (part_000): mix state plus the optional
recordable fields; the JS optional booleans default to false, the optional
file is the file name when present. -/
structure AudioTrack where
  id : String
  name : String
  file : Option String := none
  volume : Rat := 8/10
  isMuted : Bool := false
  isSolo : Bool := false
  color : String := ""
  isLoading : Bool := false
  isCollapsed : Bool := false
  isRecordable : Bool := false
  isArmed : Bool := false
  recordingState : RecState := .idle
  recordingStartOffset : Option Rat := none
deriving DecidableEq, Repr

/-- Marker record: a timestamp anchor. -/
structure Marker where
  id : String
  time : Rat
  createdAt : Nat
  label : Option String := none
deriving DecidableEq, Repr

/-- Loop record: an interval bounded by two marker ids. -/
structure Loop where
  id : String
  startMarkerId : String
  endMarkerId : String
  enabled : Bool
  createdAt : Nat
deriving DecidableEq, Repr

/-- LoopState: markers, loops, the active loop id (null as none), edit mode. -/
structure LoopState where
  markers : List Marker := []
  loops : List Loop := []
  activeLoopId : Option String := none
  editMode : Bool := false
deriving DecidableEq, Repr

/-- Shared transport state. -/
structure PlaybackState where
  isPlaying : Bool := false
  currentTime : Rat := 0
  duration : Rat := 0
  playbackRate : Rat := 1
deriving DecidableEq, Repr

/-- The in-memory zustand store fields that the verified actions read or
write.  loopBackup models the one-slot record holding a stashed
activeLoopId, preserveLoopOnNextSeek models the underscore-prefixed
one-shot flag of the same name in the source. -/
structure AudioStore where
  tracks : List AudioTrack := []
  playbackState : PlaybackState := {}
  loopState : LoopState := {}
  masterVolume : Rat := 1
  currentPieceId : Option String := none
  loopBackup : Option String := none
  preserveLoopOnNextSeek : Bool := false
  recordingStartTime : Option Rat := none
deriving DecidableEq, Repr

/-- JS truthiness of a nullable string: null and the empty string are falsy. -/
def strTruthy : Option String → Bool
  | none => false
  | some s => s ≠ ""

/-- The seekingInsideActiveLoop computation at the top of seek(time): under
the guard that the preserve flag is unset and activeLoopId is truthy, look
up the active loop and its two markers and test whether the target time is
within their interval; any failed lookup yields false. -/
def seekingInside (time : Rat) (s : AudioStore) : Bool :=
  if !s.preserveLoopOnNextSeek && strTruthy s.loopState.activeLoopId then
    match s.loopState.activeLoopId with
    | none => false
    | some aid =>
      match s.loopState.loops.find? (fun l => l.id == aid) with
      | none => false
      | some activeLoop =>
        match s.loopState.markers.find? (fun m => m.id == activeLoop.startMarkerId),
              s.loopState.markers.find? (fun m => m.id == activeLoop.endMarkerId) with
        | some startMarker, some endMarker =>
          decide (startMarker.time ≤ time) && decide (time ≤ endMarker.time)
        | _, _ => false
  else false

/-- seek(time) from createPlaybackActions (settings.ts part): disables the
active loop when seeking outside it without the preserve flag, updates
currentTime and clears the one-shot flag.  The per-engine setTime fan-out
and the synchronizing-flag timer are external effects that do not touch
the store fields. -/
def seek (time : Rat) (s : AudioStore) : AudioStore :=
  let base := { s with
    playbackState := { s.playbackState with currentTime := time },
    preserveLoopOnNextSeek := false }
  if !s.preserveLoopOnNextSeek && !seekingInside time s
      && strTruthy s.loopState.activeLoopId then
    { base with loopState := { s.loopState with
        activeLoopId := none,
        loops := s.loopState.loops.map (fun l => { l with enabled := false }) } }
  else base

/-- addMarker(time, label) from createLoopActions: rejects at 20 markers,
clamps the time to the track duration, appends and stably re-sorts by
time.  The generated id and Date.now() value are passed in explicitly. -/
def addMarker (newId : String) (now : Nat) (time : Rat) (label : Option String)
    (s : AudioStore) : String × AudioStore :=
  if s.loopState.markers.length ≥ 20 then ("", s)
  else
    let newMarker : Marker :=
      { id := newId,
        time := max 0 (min time s.playbackState.duration),
        createdAt := now,
        label := label }
    let newMarkers :=
      (s.loopState.markers ++ [newMarker]).insertionSort (fun a b => a.time ≤ b.time)
    (newId, { s with loopState := { s.loopState with markers := newMarkers } })

/-- removeMarker(id): drops the marker, cascades to every loop referencing
it, and clears activeLoopId when a removed loop was the active one. -/
def removeMarker (id : String) (s : AudioStore) : AudioStore :=
  let loopsToRemove := s.loopState.loops.filter
    (fun l => l.startMarkerId == id || l.endMarkerId == id)
  let newMarkers := s.loopState.markers.filter (fun m => m.id != id)
  let newLoops := s.loopState.loops.filter
    (fun l => l.startMarkerId != id && l.endMarkerId != id)
  { s with loopState := { s.loopState with
      markers := newMarkers,
      loops := newLoops,
      activeLoopId :=
        if loopsToRemove.any (fun l => some l.id == s.loopState.activeLoopId)
        then none else s.loopState.activeLoopId } }

/-- updateMarkerTime(id, time): clamps the new time and stably re-sorts. -/
def updateMarkerTime (id : String) (time : Rat) (s : AudioStore) : AudioStore :=
  let newMarkers :=
    (s.loopState.markers.map (fun m =>
      if m.id == id
      then { m with time := max 0 (min time s.playbackState.duration) }
      else m)).insertionSort (fun a b => a.time ≤ b.time)
  { s with loopState := { s.loopState with markers := newMarkers } }

/-- createLoop(startMarkerId, endMarkerId): rejects at 10 loops or on an
unknown marker id, orders the endpoints by marker time, appends a
disabled loop. -/
def createLoop (newId : String) (now : Nat) (startMarkerId endMarkerId : String)
    (s : AudioStore) : String × AudioStore :=
  if s.loopState.loops.length ≥ 10 then ("", s)
  else
    match s.loopState.markers.find? (fun m => m.id == startMarkerId),
          s.loopState.markers.find? (fun m => m.id == endMarkerId) with
    | some startMarker, some endMarker =>
      let pair := if startMarker.time < endMarker.time
        then (startMarkerId, endMarkerId)
        else (endMarkerId, startMarkerId)
      let newLoop : Loop :=
        { id := newId,
          startMarkerId := pair.1,
          endMarkerId := pair.2,
          enabled := false,
          createdAt := now }
      (newId, { s with loopState := { s.loopState with
          loops := s.loopState.loops ++ [newLoop] } })
    | _, _ => ("", s)

/-- removeLoop(id): drops the loop and clears activeLoopId when it was the
active one. -/
def removeLoop (id : String) (s : AudioStore) : AudioStore :=
  { s with loopState := { s.loopState with
      loops := s.loopState.loops.filter (fun l => l.id != id),
      activeLoopId :=
        if s.loopState.activeLoopId == some id then none
        else s.loopState.activeLoopId } }

/-- toggleLoopById(id): flips enabled on the loop, forces every other loop
off, sets or clears activeLoopId; when enabling it arms the one-shot
preserve flag and seeks to the start marker. -/
def toggleLoopById (id : String) (s : AudioStore) : AudioStore :=
  match s.loopState.loops.find? (fun l => l.id == id) with
  | none => s
  | some lp =>
    let newEnabled := !lp.enabled
    let newLoops := s.loopState.loops.map (fun l =>
      if l.id == id then { l with enabled := newEnabled }
      else { l with enabled := false })
    let afterSet := { s with loopState := { s.loopState with
        loops := newLoops,
        activeLoopId := if newEnabled then some id else none } }
    if newEnabled then
      match s.loopState.markers.find? (fun m => m.id == lp.startMarkerId) with
      | some startMarker =>
        seek startMarker.time { afterSet with preserveLoopOnNextSeek := true }
      | none => afterSet
    else afterSet

/-- setActiveLoop(id or null): same exclusivity as toggle without the seek;
arms the preserve flag exactly when the argument is non-null. -/
def setActiveLoop (oid : Option String) (s : AudioStore) : AudioStore :=
  { s with
    loopState := { s.loopState with
      loops := s.loopState.loops.map (fun l => { l with enabled := some l.id == oid }),
      activeLoopId := oid },
    preserveLoopOnNextSeek := oid.isSome }

/-- toggleRecordArm(trackId) from createRecordingActions (part_003): only
acts on an existing recordable track; arming while a loop is active
stashes activeLoopId in the one-slot backup and clears it, disarming
restores it from the backup when present; arming is exclusive across
tracks. -/
def toggleRecordArm (trackId : String) (s : AudioStore) : AudioStore :=
  match s.tracks.find? (fun t => t.id == trackId) with
  | none => s
  | some track =>
    if !track.isRecordable then s
    else
      let newArmedState := !track.isArmed
      let s1 :=
        if newArmedState && s.loopState.activeLoopId.isSome then
          { s with
            loopBackup := s.loopState.activeLoopId,
            loopState := { s.loopState with activeLoopId := none } }
        else s
      let s2 :=
        if !newArmedState then
          match s1.loopBackup with
          | some backupId =>
            { s1 with
              loopState := { s.loopState with activeLoopId := some backupId },
              loopBackup := none }
          | none => s1
        else s1
      { s2 with tracks := s.tracks.map (fun t =>
          { t with
            isArmed := if t.id == trackId then newArmedState else false,
            recordingState :=
              if t.id == trackId && newArmedState then .armed else .idle }) }

/-- stopRecording(trackId): marks the track stopped and clears the shared
recordingStartTime scratch field. -/
def stopRecording (trackId : String) (s : AudioStore) : AudioStore :=
  { s with
    tracks := s.tracks.map (fun t =>
      if t.id == trackId then { t with recordingState := .stopped } else t),
    recordingStartTime := none }

/-- pause() from createPlaybackActions: stops an active recording, disarms
an armed track, pauses every engine (external), and clears isPlaying.
Both lookups use the track list read at entry, as in the source. -/
def pause (s : AudioStore) : AudioStore :=
  let tracks := s.tracks
  let s1 := match tracks.find? (fun t => t.recordingState == RecState.recording) with
    | some recordingTrack => stopRecording recordingTrack.id s
    | none => s
  let s2 := match tracks.find? (fun t => t.isArmed) with
    | some armedTrack => toggleRecordArm armedTrack.id s1
    | none => s1
  { s2 with playbackState := { s2.playbackState with isPlaying := false } }

/-- createPiece(name) store effect (part_001): the piece and its empty
settings go to the document store (external); in memory it records the
fresh id as the current piece and returns it. -/
def createPiece (newPieceId : String) (s : AudioStore) : String × AudioStore :=
  (newPieceId, { s with currentPieceId := some newPieceId })

/-- addTrack(file) from createTrackActions (part_002): rejects at 8 tracks
(alert only, state untouched); otherwise ensures a current piece exists,
pauses, seeks to 0, and appends the new track; the asynchronous blob save
ends by clearing isLoading on the new track whether it succeeded or not.
The generated track and piece ids are parameters standing for the values
built from Date.now() and Math.random(). -/
def addTrack (newTrackId newPieceId fileName : String) (s : AudioStore) : AudioStore :=
  if s.tracks.length ≥ 8 then s
  else
    let s1 := if s.currentPieceId.isNone then (createPiece newPieceId s).2 else s
    let s2 := seek 0 (pause s1)
    let colors := ["#4ECDC4", "#FFA07A", "#BB8FCE", "#F7DC6F",
                   "#85C1E2", "#FF6B6B", "#98D8C8", "#e680a5"]
    let newTrack : AudioTrack :=
      { id := newTrackId,
        name := fileName,
        file := some fileName,
        volume := 8/10,
        isMuted := false,
        isSolo := false,
        color := colors.getD (s.tracks.length % colors.length) "",
        isLoading := true }
    let s3 := { s2 with tracks := s2.tracks ++ [newTrack] }
    { s3 with tracks := s3.tracks.map (fun t =>
        if t.id == newTrackId then { t with isLoading := false } else t) }

/-- updateTrack(id, updates): maps the partial record update over the
matching track and fires a settings save (external). -/
def updateTrack (id : String) (f : AudioTrack → AudioTrack) (s : AudioStore) : AudioStore :=
  { s with tracks := s.tracks.map (fun t => if t.id == id then f t else t) }

/-- toggleSolo(id): flips the solo flag on the track, then recomputes and
applies the engine mute flag for every track whose engine is registered,
using the updated list.  The registry of engine ids is the reg parameter;
the setMuted calls are returned as (trackId, muted) command pairs. -/
def toggleSolo (reg : List String) (id : String) (s : AudioStore) :
    AudioStore × List (String × Bool) :=
  match s.tracks.find? (fun t => t.id == id) with
  | none => (s, [])
  | some track =>
    let newSoloState := !track.isSolo
    let s1 := updateTrack id (fun t => { t with isSolo := newSoloState }) s
    let allTracks := s.tracks.map (fun t =>
      if t.id == id then { t with isSolo := newSoloState } else t)
    let hasSoloedTracks := allTracks.any (fun t => t.isSolo)
    let cmds := allTracks.filterMap (fun t =>
      if reg.contains t.id
      then some (t.id, t.isMuted || (hasSoloedTracks && !t.isSolo))
      else none)
    (s1, cmds)

/-- exclusiveSolo(id): solo exactly the given id, then mute every engine
except it (still respecting its own mute flag). -/
def exclusiveSolo (reg : List String) (id : String) (s : AudioStore) :
    AudioStore × List (String × Bool) :=
  let newTracks := s.tracks.map (fun t => { t with isSolo := t.id == id })
  let cmds := newTracks.filterMap (fun t =>
    if reg.contains t.id
    then some (t.id, t.isMuted || t.id != id)
    else none)
  ({ s with tracks := newTracks }, cmds)

/-- unmuteAll(): clears the mute flag on every track, then reapplies the
solo policy to every registered engine. -/
def unmuteAll (reg : List String) (s : AudioStore) :
    AudioStore × List (String × Bool) :=
  let newTracks := s.tracks.map (fun t => { t with isMuted := false })
  let hasSoloedTracks := newTracks.any (fun t => t.isSolo)
  let cmds := newTracks.filterMap (fun t =>
    if reg.contains t.id
    then some (t.id, hasSoloedTracks && !t.isSolo)
    else none)
  ({ s with tracks := newTracks }, cmds)

/-!
Invariants and specification-side predicates.
-/

/-- Boolean check that activeLoopId matches the enabled loop: when null no
loop is enabled, when set some enabled loop carries exactly that id. -/
def activeMatches (ls : LoopState) : Bool :=
  match ls.activeLoopId with
  | none => ls.loops.all (fun l => !l.enabled)
  | some i => ls.loops.any (fun l => l.enabled && l.id == i)

/-- The loop exclusivity invariant of the data model: at most one loop is
enabled and activeLoopId designates it, or is null when none is enabled. -/
def LoopInv (ls : LoopState) : Prop :=
  ls.loops.countP (fun l => l.enabled) ≤ 1 ∧ activeMatches ls = true

instance (ls : LoopState) : Decidable (LoopInv ls) := by
  unfold LoopInv; infer_instance

/-- Well-formedness of the loop list: loop ids are pairwise distinct, as
guaranteed by the fresh-id construction in createLoop. -/
def LoopWF (s : AudioStore) : Prop :=
  (s.loopState.loops.map Loop.id).Nodup

instance (s : AudioStore) : Decidable (LoopWF s) := by
  unfold LoopWF; infer_instance

/-- The operations quantified over by the loop exclusivity claim. -/
inductive LoopOp where
  | toggle (id : String)
  | setActive (oid : Option String)
  | remLoop (id : String)
  | remMarker (id : String)
  | seekTo (t : Rat)

/-- Interpretation of a loop operation on the store. -/
def applyLoopOp : LoopOp → AudioStore → AudioStore
  | .toggle id, s => toggleLoopById id s
  | .setActive oid, s => setActiveLoop oid s
  | .remLoop id, s => removeLoop id s
  | .remMarker id, s => removeMarker id s
  | .seekTo t, s => seek t s

/-- A setActiveLoop argument names an existing loop or is null; every other
operation takes arbitrary arguments. -/
def ValidLoopOp (s : AudioStore) : LoopOp → Prop
  | .setActive (some i) => ∃ l ∈ s.loopState.loops, l.id = i
  | _ => True

/-- Reachability by sequences of the five loop-touching operations. -/
inductive ReachBy : AudioStore → AudioStore → Prop
  | refl (s : AudioStore) : ReachBy s s
  | step {s t : AudioStore} (op : LoopOp) :
      ReachBy s t → ValidLoopOp t op → ReachBy s (applyLoopOp op t)

/-- Markers sorted ascending by time. -/
def MSorted (ms : List Marker) : Prop :=
  ms.Sorted (fun a b => a.time ≤ b.time)

instance (ms : List Marker) : Decidable (MSorted ms) := by
  unfold MSorted; infer_instance

/-- The marker list invariant: sorted ascending by time, at most 20. -/
def MarkerInv (s : AudioStore) : Prop :=
  MSorted s.loopState.markers ∧ s.loopState.markers.length ≤ 20

instance (s : AudioStore) : Decidable (MarkerInv s) := by
  unfold MarkerInv; infer_instance

/-- Ties broken by insertion order: markers with equal times appear in
creation (createdAt) order. -/
def TiesByInsertion (ms : List Marker) : Prop :=
  ms.Pairwise (fun a b => a.time = b.time → a.createdAt ≤ b.createdAt)

instance (ms : List Marker) : Decidable (TiesByInsertion ms) := by
  unfold TiesByInsertion; infer_instance

/-- The marker operations quantified over by the marker-list claim. -/
inductive MOp where
  | add (newId : String) (now : Nat) (time : Rat) (label : Option String)
  | update (id : String) (time : Rat)

/-- Interpretation of a marker operation on the store. -/
def applyMOp (s : AudioStore) : MOp → AudioStore
  | .add nid now t lab => (addMarker nid now t lab s).2
  | .update id t => updateMarkerTime id t s

/-- A sequence of marker operations, applied left to right. -/
def applyMOps (ops : List MOp) (s : AudioStore) : AudioStore :=
  ops.foldl applyMOp s

/-- Modelled from the spec: some track is soloed. -/
def anyTrackSolo (tl : List AudioTrack) : Bool :=
  tl.any (fun t => t.isSolo)

/-- Modelled from the spec: the engine mute flag a track should get. -/
def mutedSpec (tl : List AudioTrack) (t : AudioTrack) : Bool :=
  t.isMuted || (anyTrackSolo tl && !t.isSolo)

/-- Modelled from the spec: a track is audible iff it is not muted and
either no track is soloed or it is soloed itself. -/
def audibleSpec (tl : List AudioTrack) (t : AudioTrack) : Bool :=
  !t.isMuted && (!anyTrackSolo tl || t.isSolo)

/-!
Helper lemmas shared by the claim theorems.
-/

/-- A seek issued with the one-shot preserve flag set never touches the
loop state. -/
lemma seek_loopState_of_preserve (t : Rat) (s : AudioStore)
    (hp : s.preserveLoopOnNextSeek = true) : (seek t s).loopState = s.loopState := by
  simp only [seek, hp]
  rfl

/-- Mapping a function that keeps ids fixed keeps the id list fixed. -/
lemma ids_map_of_id_preserved (loops : List Loop) (f : Loop → Loop)
    (hf : ∀ l, (f l).id = l.id) :
    (loops.map f).map Loop.id = loops.map Loop.id := by
  induction loops with
  | nil => rfl
  | cons a l ih => simp [hf, ih]

/-- With pairwise distinct ids, at most one loop matches a given id. -/
lemma countP_le_one_of_nodup_ids {loops : List Loop}
    (h : (loops.map Loop.id).Nodup) (i : String) :
    loops.countP (fun l => l.id == i) ≤ 1 := by
  induction loops with
  | nil => simp
  | cons a l ih =>
    simp only [List.map_cons, List.nodup_cons] at h
    rw [List.countP_cons]
    by_cases ha : a.id = i
    · have hzero : l.countP (fun l => l.id == i) = 0 := by
        apply List.countP_eq_zero.mpr
        intro x hx hxi
        exact h.1 (ha ▸ (by simpa using hxi) ▸ List.mem_map_of_mem Loop.id hx)
      simp [hzero, ha]
    · simpa [ha] using ih h.2

/-- A predicate holding on at most one list entry is injective on the
entries it holds on. -/
lemma eq_of_countP_le_one {α : Type} {p : α → Bool} {l : List α}
    (h : l.countP p ≤ 1) {a b : α} (ha : a ∈ l) (hb : b ∈ l)
    (hpa : p a = true) (hpb : p b = true) : a = b := by
  induction l with
  | nil => cases ha
  | cons x xs ih =>
    rw [List.countP_cons] at h
    have hxs : xs.countP p ≤ 1 := le_trans (Nat.le_add_right _ _) h
    rcases List.mem_cons.mp ha with rfl | ha' <;> rcases List.mem_cons.mp hb with rfl | hb'
    · rfl
    · exfalso
      have h1 : 0 < xs.countP p := List.countP_pos_iff.mpr ⟨b, hb', hpb⟩
      rw [if_pos hpa] at h
      omega
    · exfalso
      have h1 : 0 < xs.countP p := List.countP_pos_iff.mpr ⟨a, ha', hpa⟩
      rw [if_pos hpb] at h
      omega
    · exact ih hxs ha' hb'


/-- When the disable condition fails, seek leaves the loop state alone. -/
lemma seek_loopState_of_cond_false (t : Rat) (s : AudioStore)
    (h : (!s.preserveLoopOnNextSeek && !seekingInside t s
      && strTruthy s.loopState.activeLoopId) = false) :
    (seek t s).loopState = s.loopState := by
  simp only [seek, h]
  rfl

/-- When the disable condition holds, seek clears activeLoopId and disables
every loop, keeping the markers. -/
lemma seek_loopState_of_cond_true (t : Rat) (s : AudioStore)
    (h : (!s.preserveLoopOnNextSeek && !seekingInside t s
      && strTruthy s.loopState.activeLoopId) = true) :
    (seek t s).loopState = { s.loopState with
      activeLoopId := none,
      loops := s.loopState.loops.map (fun l => { l with enabled := false }) } := by
  simp only [seek, h]
  rfl

/-- seek preserves the loop exclusivity invariant. -/
lemma loopInv_seek (t : Rat) (s : AudioStore) (h : LoopInv s.loopState) :
    LoopInv (seek t s).loopState := by
  by_cases hc : (!s.preserveLoopOnNextSeek && !seekingInside t s
      && strTruthy s.loopState.activeLoopId) = true
  · rw [seek_loopState_of_cond_true t s hc]
    refine ⟨?_, ?_⟩
    · simp only [List.countP_map]
      exact le_trans
        (le_of_eq (List.countP_eq_zero.mpr (fun a _ => by simp [Function.comp])))
        (by omega)
    · simp [activeMatches, List.all_eq_true]
  · rw [seek_loopState_of_cond_false t s (by simpa using hc)]
    exact h

/-- seek preserves distinctness of loop ids. -/
lemma loopWF_seek (t : Rat) (s : AudioStore) (h : LoopWF s) : LoopWF (seek t s) := by
  by_cases hc : (!s.preserveLoopOnNextSeek && !seekingInside t s
      && strTruthy s.loopState.activeLoopId) = true
  · unfold LoopWF
    rw [seek_loopState_of_cond_true t s hc]
    simpa [ids_map_of_id_preserved _ _ (fun l => rfl)] using h
  · unfold LoopWF
    rw [seek_loopState_of_cond_false t s (by simpa using hc)]
    exact h

/-- seek always lands the transport on the requested time. -/
lemma seek_currentTime (t : Rat) (s : AudioStore) :
    (seek t s).playbackState.currentTime = t := by
  unfold seek
  split <;> rfl

/-- seek always clears the one-shot preserve flag. -/
lemma seek_clears_preserve (t : Rat) (s : AudioStore) :
    (seek t s).preserveLoopOnNextSeek = false := by
  unfold seek
  split <;> rfl

/-- toggleLoopById on an unknown id is the identity. -/
lemma toggleLoopById_of_find_none (id : String) (s : AudioStore)
    (hf : s.loopState.loops.find? (fun l => l.id == id) = none) :
    toggleLoopById id s = s := by
  simp [toggleLoopById, hf]

/-- toggleLoopById on an enabled loop disables every loop and clears the
active id, without seeking. -/
lemma toggleLoopById_of_enabled (id : String) (s : AudioStore) (lp : Loop)
    (hf : s.loopState.loops.find? (fun l => l.id == id) = some lp)
    (he : lp.enabled = true) :
    toggleLoopById id s = { s with loopState := { s.loopState with
      loops := s.loopState.loops.map (fun l =>
        if l.id == id then { l with enabled := false }
        else { l with enabled := false }),
      activeLoopId := none } } := by
  simp [toggleLoopById, hf, he]

/-- The loop state after toggleLoopById on a disabled loop: the loop is
enabled, every other loop disabled, and the id recorded as active;
the internally issued seek does not undo this. -/
lemma toggleLoopById_of_disabled_loopState (id : String) (s : AudioStore) (lp : Loop)
    (hf : s.loopState.loops.find? (fun l => l.id == id) = some lp)
    (he : lp.enabled = false) :
    (toggleLoopById id s).loopState = { s.loopState with
      loops := s.loopState.loops.map (fun l =>
        if l.id == id then { l with enabled := true }
        else { l with enabled := false }),
      activeLoopId := some id } := by
  simp only [toggleLoopById, hf, he, Bool.not_false, if_pos]
  cases hm : s.loopState.markers.find? (fun m => m.id == lp.startMarkerId) with
  | none => rfl
  | some sm => rw [seek_loopState_of_preserve _ _ rfl]

/-- toggleLoopById preserves the loop exclusivity invariant. -/
lemma loopInv_toggleLoopById (id : String) (s : AudioStore) (hwf : LoopWF s)
    (h : LoopInv s.loopState) : LoopInv (toggleLoopById id s).loopState := by
  cases hf : s.loopState.loops.find? (fun l => l.id == id) with
  | none => rw [toggleLoopById_of_find_none id s hf]; exact h
  | some lp =>
    have hmem : lp ∈ s.loopState.loops := List.mem_of_find?_eq_some hf
    have hpid : (lp.id == id) = true := by
      have h2 := List.find?_some hf
      exact h2
    by_cases he : lp.enabled
    · rw [toggleLoopById_of_enabled id s lp hf he]
      refine ⟨?_, ?_⟩
      · apply le_trans (le_of_eq (List.countP_eq_zero.mpr ?_)) (by omega)
        intro x hx hpx
        obtain ⟨y, _, rfl⟩ := List.mem_map.mp hx
        revert hpx
        split <;> simp
      · simp only [activeMatches, List.all_eq_true]
        intro x hx
        obtain ⟨y, _, rfl⟩ := List.mem_map.mp hx
        split <;> simp
    · have he' : lp.enabled = false := by simpa using he
      rw [LoopInv, toggleLoopById_of_disabled_loopState id s lp hf he']
      refine ⟨?_, ?_⟩
      · have : (s.loopState.loops.map (fun l =>
            if l.id == id then { l with enabled := true }
            else { l with enabled := false })).countP (fun l => l.enabled)
            = s.loopState.loops.countP (fun l => l.id == id) := by
          rw [List.countP_map]
          apply List.countP_congr
          intro a _
          by_cases ha : (a.id == id) = true <;> simp [ha, Function.comp]
        rw [this]
        exact countP_le_one_of_nodup_ids hwf id
      · simp only [activeMatches, List.any_eq_true]
        refine ⟨{ lp with enabled := true }, ?_, by simpa using hpid⟩
        have := List.mem_map_of_mem (fun l =>
          if l.id == id then { l with enabled := true }
          else { l with enabled := false }) hmem
        simpa [hpid] using this

/-- toggleLoopById preserves distinctness of loop ids. -/
lemma loopWF_toggleLoopById (id : String) (s : AudioStore) (hwf : LoopWF s) :
    LoopWF (toggleLoopById id s) := by
  cases hf : s.loopState.loops.find? (fun l => l.id == id) with
  | none => rw [toggleLoopById_of_find_none id s hf]; exact hwf
  | some lp =>
    by_cases he : lp.enabled
    · unfold LoopWF
      rw [toggleLoopById_of_enabled id s lp hf he]
      have hids := ids_map_of_id_preserved s.loopState.loops
        (fun l => if l.id == id then { l with enabled := false }
          else { l with enabled := false })
        (fun l => by by_cases hq : (l.id == id) = true <;> simp [hq])
      exact hids ▸ hwf
    · have he' : lp.enabled = false := by simpa using he
      unfold LoopWF
      rw [toggleLoopById_of_disabled_loopState id s lp hf he']
      have hids := ids_map_of_id_preserved s.loopState.loops
        (fun l => if l.id == id then { l with enabled := true }
          else { l with enabled := false })
        (fun l => by by_cases hq : (l.id == id) = true <;> simp [hq])
      exact hids ▸ hwf

/-- BEq reduction: some versus none. -/
lemma some_beq_none (x : String) : (some x == (none : Option String)) = false := rfl

/-- BEq reduction: some versus some. -/
lemma some_beq_some (x y : String) : ((some x == some y) : Bool) = (x == y) := rfl

/-- The loops after setActiveLoop. -/
lemma setActiveLoop_loops (oid : Option String) (s : AudioStore) :
    (setActiveLoop oid s).loopState.loops
      = s.loopState.loops.map (fun l => { l with enabled := some l.id == oid }) := rfl

/-- The active id after setActiveLoop. -/
lemma setActiveLoop_active (oid : Option String) (s : AudioStore) :
    (setActiveLoop oid s).loopState.activeLoopId = oid := rfl

/-- setActiveLoop preserves the loop exclusivity invariant when its argument
is null or the id of an existing loop. -/
lemma loopInv_setActiveLoop (oid : Option String) (s : AudioStore) (hwf : LoopWF s)
    (hv : ∀ i, oid = some i → ∃ l ∈ s.loopState.loops, l.id = i) :
    LoopInv (setActiveLoop oid s).loopState := by
  cases oid with
  | none =>
    refine ⟨?_, ?_⟩
    · rw [setActiveLoop_loops]
      apply le_trans (le_of_eq (List.countP_eq_zero.mpr ?_)) (by omega)
      intro x hx hpx
      obtain ⟨y, _, rfl⟩ := List.mem_map.mp hx
      rw [show ({ y with enabled := some y.id == none } : Loop).enabled
          = (some y.id == none) from rfl, some_beq_none] at hpx
      exact Bool.false_ne_true hpx
    · unfold activeMatches
      rw [setActiveLoop_active, setActiveLoop_loops]
      rw [List.all_eq_true]
      intro x hx
      obtain ⟨y, _, rfl⟩ := List.mem_map.mp hx
      rw [show ({ y with enabled := some y.id == none } : Loop).enabled
          = (some y.id == none) from rfl, some_beq_none]
      rfl
  | some i =>
    obtain ⟨l0, hl0, hl0id⟩ := hv i rfl
    refine ⟨?_, ?_⟩
    · rw [setActiveLoop_loops]
      have hcp : (s.loopState.loops.map
          (fun l => { l with enabled := some l.id == some i })).countP (fun l => l.enabled)
          = s.loopState.loops.countP (fun l => l.id == i) := by
        rw [List.countP_map]
        apply List.countP_congr
        intro a _
        simp [Function.comp, some_beq_some]
      rw [hcp]
      exact countP_le_one_of_nodup_ids hwf i
    · unfold activeMatches
      rw [setActiveLoop_active, setActiveLoop_loops]
      rw [List.any_eq_true]
      refine ⟨{ l0 with enabled := some l0.id == some i }, List.mem_map_of_mem _ hl0, ?_⟩
      simp [some_beq_some, hl0id]

/-- setActiveLoop preserves distinctness of loop ids. -/
lemma loopWF_setActiveLoop (oid : Option String) (s : AudioStore) (hwf : LoopWF s) :
    LoopWF (setActiveLoop oid s) := by
  unfold LoopWF setActiveLoop
  have hids := ids_map_of_id_preserved s.loopState.loops
    (fun l => { l with enabled := some l.id == oid }) (fun l => rfl)
  exact hids ▸ hwf

/-- BEq reduction: none versus some. -/
lemma none_beq_some (x : String) : ((none : Option String) == some x) = false := rfl

/-- The loops after removeLoop. -/
lemma removeLoop_loops (id : String) (s : AudioStore) :
    (removeLoop id s).loopState.loops
      = s.loopState.loops.filter (fun l => l.id != id) := rfl

/-- The active id after removeLoop. -/
lemma removeLoop_active (id : String) (s : AudioStore) :
    (removeLoop id s).loopState.activeLoopId
      = if s.loopState.activeLoopId == some id then none
        else s.loopState.activeLoopId := rfl

/-- removeLoop preserves the loop exclusivity invariant. -/
lemma loopInv_removeLoop (id : String) (s : AudioStore) (h : LoopInv s.loopState) :
    LoopInv (removeLoop id s).loopState := by
  obtain ⟨hcnt, hact⟩ := h
  refine ⟨?_, ?_⟩
  · rw [removeLoop_loops]
    exact le_trans ((List.filter_sublist _).countP_le _) hcnt
  · cases hA : s.loopState.activeLoopId with
    | none =>
      have hAnew : (removeLoop id s).loopState.activeLoopId = none := by
        rw [removeLoop_active, hA, none_beq_some]
        rfl
      unfold activeMatches
      rw [hAnew, removeLoop_loops, List.all_eq_true]
      unfold activeMatches at hact
      rw [hA, List.all_eq_true] at hact
      intro x hx
      exact hact x (List.mem_filter.mp hx).1
    | some a =>
      unfold activeMatches at hact
      rw [hA, List.any_eq_true] at hact
      obtain ⟨l0, hl0, hl0p⟩ := hact
      have hl0en : l0.enabled = true := (Bool.and_eq_true_iff.mp hl0p).1
      have hl0id : l0.id = a := by
        have h2 := (Bool.and_eq_true_iff.mp hl0p).2
        simpa using h2
      by_cases hai : a = id
      · have hAnew : (removeLoop id s).loopState.activeLoopId = none := by
          rw [removeLoop_active, hA]
          simp [hai]
        unfold activeMatches
        rw [hAnew, removeLoop_loops, List.all_eq_true]
        intro x hx
        obtain ⟨hxl, hxp⟩ := List.mem_filter.mp hx
        cases hxen : x.enabled with
        | false => simp [hxen]
        | true =>
          have hx0 : x = l0 := eq_of_countP_le_one hcnt hxl hl0 hxen hl0en
          rw [hx0, hl0id, hai] at hxp
          simp at hxp
      · have hAnew : (removeLoop id s).loopState.activeLoopId = some a := by
          rw [removeLoop_active, hA]
          simp [hai]
        unfold activeMatches
        rw [hAnew, removeLoop_loops, List.any_eq_true]
        refine ⟨l0, List.mem_filter.mpr ⟨hl0, ?_⟩, hl0p⟩
        simp [hl0id, hai]

/-- removeLoop preserves distinctness of loop ids. -/
lemma loopWF_removeLoop (id : String) (s : AudioStore) (hwf : LoopWF s) :
    LoopWF (removeLoop id s) := by
  unfold LoopWF removeLoop
  exact hwf.sublist ((List.filter_sublist _).map _)

/-- The loops after removeMarker. -/
lemma removeMarker_loops (id : String) (s : AudioStore) :
    (removeMarker id s).loopState.loops
      = s.loopState.loops.filter
          (fun l => l.startMarkerId != id && l.endMarkerId != id) := rfl

/-- The markers after removeMarker. -/
lemma removeMarker_markers (id : String) (s : AudioStore) :
    (removeMarker id s).loopState.markers
      = s.loopState.markers.filter (fun m => m.id != id) := rfl

/-- The active id after removeMarker. -/
lemma removeMarker_active (id : String) (s : AudioStore) :
    (removeMarker id s).loopState.activeLoopId
      = if (s.loopState.loops.filter
            (fun l => l.startMarkerId == id || l.endMarkerId == id)).any
            (fun l => some l.id == s.loopState.activeLoopId)
        then none else s.loopState.activeLoopId := rfl

/-- removeMarker preserves the loop exclusivity invariant. -/
lemma loopInv_removeMarker (id : String) (s : AudioStore) (hwf : LoopWF s)
    (h : LoopInv s.loopState) : LoopInv (removeMarker id s).loopState := by
  obtain ⟨hcnt, hact⟩ := h
  refine ⟨?_, ?_⟩
  · rw [removeMarker_loops]
    exact le_trans ((List.filter_sublist _).countP_le _) hcnt
  · cases hA : s.loopState.activeLoopId with
    | none =>
      have hAnew : (removeMarker id s).loopState.activeLoopId = none := by
        rw [removeMarker_active, hA]
        simp [some_beq_none]
      unfold activeMatches
      rw [hAnew, removeMarker_loops, List.all_eq_true]
      unfold activeMatches at hact
      rw [hA, List.all_eq_true] at hact
      intro x hx
      exact hact x (List.mem_filter.mp hx).1
    | some a =>
      unfold activeMatches at hact
      rw [hA, List.any_eq_true] at hact
      obtain ⟨l0, hl0, hl0p⟩ := hact
      have hl0en : l0.enabled = true := (Bool.and_eq_true_iff.mp hl0p).1
      have hl0id : l0.id = a := by
        have h2 := (Bool.and_eq_true_iff.mp hl0p).2
        simpa using h2
      by_cases hrm : (s.loopState.loops.filter
          (fun l => l.startMarkerId == id || l.endMarkerId == id)).any
          (fun l => some l.id == s.loopState.activeLoopId) = true
      · have hAnew : (removeMarker id s).loopState.activeLoopId = none := by
          rw [removeMarker_active, if_pos hrm]
        rw [List.any_eq_true] at hrm
        obtain ⟨r, hrmem, hrp⟩ := hrm
        obtain ⟨hrloops, hrpred⟩ := List.mem_filter.mp hrmem
        have hrid : r.id = a := by
          rw [hA] at hrp
          simpa [some_beq_some] using hrp
        have hr0 : r = l0 :=
          List.inj_on_of_nodup_map hwf hrloops hl0 (by rw [hrid, hl0id])
        unfold activeMatches
        rw [hAnew, removeMarker_loops, List.all_eq_true]
        intro x hx
        obtain ⟨hxl, hxp⟩ := List.mem_filter.mp hx
        cases hxen : x.enabled with
        | false => simp [hxen]
        | true =>
          have hx0 : x = l0 := eq_of_countP_le_one hcnt hxl hl0 hxen hl0en
          rw [hx0, ← hr0] at hxp
          rcases Bool.or_eq_true_iff.mp hrpred with hp | hp <;> simp [bne, hp] at hxp
      · have hAnew : (removeMarker id s).loopState.activeLoopId = some a := by
          rw [removeMarker_active, if_neg hrm, hA]
        have hl0keep : (l0.startMarkerId != id && l0.endMarkerId != id) = true := by
          by_contra hk
          have hk' : (l0.startMarkerId == id || l0.endMarkerId == id) = true := by
            cases hs : (l0.startMarkerId == id) <;>
              cases hee : (l0.endMarkerId == id) <;>
              simp [hs, hee, bne] at hk ⊢
          exact hrm (List.any_eq_true.mpr
            ⟨l0, List.mem_filter.mpr ⟨hl0, hk'⟩, by rw [hA]; simp [some_beq_some, hl0id]⟩)
        unfold activeMatches
        rw [hAnew, removeMarker_loops, List.any_eq_true]
        exact ⟨l0, List.mem_filter.mpr ⟨hl0, hl0keep⟩, hl0p⟩

/-- removeMarker preserves distinctness of loop ids. -/
lemma loopWF_removeMarker (id : String) (s : AudioStore) (hwf : LoopWF s) :
    LoopWF (removeMarker id s) := by
  unfold LoopWF
  rw [removeMarker_loops]
  exact hwf.sublist ((List.filter_sublist _).map _)

/-- A state with one enabled loop, recorded as active, and one recordable
unarmed track. -/
def c1Store : AudioStore :=
  { tracks := [{ id := "t1", name := "rec", isRecordable := true }],
    loopState :=
      { markers := [{ id := "m1", time := 1, createdAt := 1 },
                    { id := "m2", time := 3, createdAt := 2 }],
        loops := [{ id := "L", startMarkerId := "m1", endMarkerId := "m2",
                    enabled := true, createdAt := 3 }],
        activeLoopId := some "L" } }

/-- Claim C1, amended: starting from a well-formed state satisfying the loop
exclusivity invariant (at most one loop enabled, activeLoopId the id of
the enabled loop or null when none), every state reachable by sequences of
toggleLoopById, setActiveLoop (with null or an existing loop id), removeLoop,
removeMarker and seek still satisfies it.  toggleRecordArm is excluded: arming
while a loop is active deliberately clears activeLoopId while leaving the
loop enabled (see the counterexample theorem). -/
theorem C1_loop_exclusive_invariant (s t : AudioStore) (hwf : LoopWF s)
    (hinv : LoopInv s.loopState) (hr : ReachBy s t) :
    LoopWF t ∧ LoopInv t.loopState := by
  induction hr with
  | refl => exact ⟨hwf, hinv⟩
  | step op hr2 hv ih =>
    obtain ⟨ihwf, ihinv⟩ := ih
    cases op with
    | toggle id =>
      exact ⟨loopWF_toggleLoopById id _ ihwf, loopInv_toggleLoopById id _ ihwf ihinv⟩
    | setActive oid =>
      refine ⟨loopWF_setActiveLoop oid _ ihwf, loopInv_setActiveLoop oid _ ihwf ?_⟩
      intro i hi
      cases oid with
      | none => cases hi
      | some j =>
        cases hi
        exact hv
    | remLoop id =>
      exact ⟨loopWF_removeLoop id _ ihwf, loopInv_removeLoop id _ ihinv⟩
    | remMarker id =>
      exact ⟨loopWF_removeMarker id _ ihwf, loopInv_removeMarker id _ ihwf ihinv⟩
    | seekTo u =>
      exact ⟨loopWF_seek u _ ihwf, loopInv_seek u _ ihinv⟩

/-- Witness for C1 at a concrete state and a one-step seek sequence. -/
theorem C1_loop_exclusive_invariant_witness :
    LoopWF c1Store ∧ LoopInv c1Store.loopState ∧
    (LoopWF (applyLoopOp (.seekTo 99) c1Store) ∧
      LoopInv (applyLoopOp (.seekTo 99) c1Store).loopState) :=
  ⟨by decide, by decide,
    C1_loop_exclusive_invariant c1Store _ (by decide) (by decide)
      (ReachBy.step _ (ReachBy.refl _) trivial)⟩

/-- Counterexample to C1 as stated: from a state satisfying the invariant,
toggleRecordArm on a recordable track while a loop is active clears
activeLoopId but leaves the loop enabled, so the invariant fails. -/
theorem C1_toggleRecordArm_breaks_invariant :
    LoopInv c1Store.loopState ∧
    (toggleRecordArm "t1" c1Store).loopState.activeLoopId = none ∧
    (toggleRecordArm "t1" c1Store).loopState.loops.map Loop.enabled = [true] ∧
    ¬ LoopInv (toggleRecordArm "t1" c1Store).loopState := by decide

/-- Claim C3: with loop L active (bounds s < e via its start and end
markers), the preserve flag unset, seek(T) keeps L enabled and active when
s ≤ T ≤ e, and otherwise disables every loop and clears activeLoopId; the
transport time becomes T either way. -/
theorem C3_seek_active_loop (s : AudioStore) (L : Loop) (sm em : Marker) (T : Rat)
    (hpres : s.preserveLoopOnNextSeek = false)
    (hactive : s.loopState.activeLoopId = some L.id)
    (hid : L.id ≠ "")
    (hfind : s.loopState.loops.find? (fun l => l.id == L.id) = some L)
    (hen : L.enabled = true)
    (hsm : s.loopState.markers.find? (fun m => m.id == L.startMarkerId) = some sm)
    (hem : s.loopState.markers.find? (fun m => m.id == L.endMarkerId) = some em)
    (hse : sm.time < em.time) :
    (seek T s).playbackState.currentTime = T ∧
    ((sm.time ≤ T ∧ T ≤ em.time) →
      (seek T s).loopState = s.loopState ∧
      (seek T s).loopState.activeLoopId = some L.id ∧
      ∃ l ∈ (seek T s).loopState.loops, l.id = L.id ∧ l.enabled = true) ∧
    (¬(sm.time ≤ T ∧ T ≤ em.time) →
      (seek T s).loopState.activeLoopId = none ∧
      ∀ l ∈ (seek T s).loopState.loops, l.enabled = false) := by
  have htr : strTruthy s.loopState.activeLoopId = true := by
    rw [hactive]
    simp [strTruthy, hid]
  refine ⟨seek_currentTime T s, ?_, ?_⟩
  · intro hio
    have hseek : seekingInside T s = true := by
      unfold seekingInside
      rw [hpres, htr]
      simp only [Bool.not_false, Bool.true_and, if_pos]
      rw [hactive]
      simp only [hfind, hsm, hem]
      simp [hio.1, hio.2]
    have hcond : (!s.preserveLoopOnNextSeek && !seekingInside T s
        && strTruthy s.loopState.activeLoopId) = false := by
      rw [hpres, hseek]
      rfl
    have hst := seek_loopState_of_cond_false T s hcond
    refine ⟨hst, by rw [hst, hactive], ?_⟩
    rw [hst]
    exact ⟨L, List.mem_of_find?_eq_some hfind, rfl, hen⟩
  · intro hio
    have hseek : seekingInside T s = false := by
      unfold seekingInside
      rw [hpres, htr]
      simp only [Bool.not_false, Bool.true_and, if_pos]
      rw [hactive]
      simp only [hfind, hsm, hem]
      by_cases h1 : sm.time ≤ T
      · have h2 : ¬ T ≤ em.time := fun h2 => hio ⟨h1, h2⟩
        simp [h2]
      · simp [h1]
    have hcond : (!s.preserveLoopOnNextSeek && !seekingInside T s
        && strTruthy s.loopState.activeLoopId) = true := by
      rw [hpres, hseek, htr]
      rfl
    have hst := seek_loopState_of_cond_true T s hcond
    rw [hst]
    refine ⟨rfl, ?_⟩
    intro l hl
    obtain ⟨y, _, rfl⟩ := List.mem_map.mp hl
    rfl

/-- A state with an active enabled loop over markers at times 1 and 3. -/
def c3Store : AudioStore :=
  { loopState :=
      { markers := [{ id := "m1", time := 1, createdAt := 1 },
                    { id := "m2", time := 3, createdAt := 2 }],
        loops := [{ id := "L", startMarkerId := "m1", endMarkerId := "m2",
                    enabled := true, createdAt := 3 }],
        activeLoopId := some "L" } }

/-- Witness for C3: seeking to 9, outside the active loop bounds 1..3,
disables the loop and clears the active id. -/
theorem C3_seek_active_loop_witness :
    (seek 9 c3Store).loopState.activeLoopId = none ∧
    ∀ l ∈ (seek 9 c3Store).loopState.loops, l.enabled = false :=
  (C3_seek_active_loop c3Store
    { id := "L", startMarkerId := "m1", endMarkerId := "m2",
      enabled := true, createdAt := 3 }
    { id := "m1", time := 1, createdAt := 1 }
    { id := "m2", time := 3, createdAt := 2 } 9
    rfl rfl (by decide) (by decide) rfl (by decide) (by decide)
    (by decide)).2.2 (by decide)

/-- Claim C4: toggleLoopById on a currently disabled loop whose start marker
exists enables it, records it active, seeks the transport to the start
marker time, and consumes the preserve flag, so the internally issued seek
does not undo the activation. -/
theorem C4_toggle_enables_and_seeks (s : AudioStore) (L : Loop) (sm : Marker)
    (hfind : s.loopState.loops.find? (fun l => l.id == L.id) = some L)
    (hdis : L.enabled = false)
    (hsm : s.loopState.markers.find? (fun m => m.id == L.startMarkerId) = some sm) :
    (toggleLoopById L.id s).playbackState.currentTime = sm.time ∧
    (toggleLoopById L.id s).loopState.activeLoopId = some L.id ∧
    (∃ l ∈ (toggleLoopById L.id s).loopState.loops, l.id = L.id ∧ l.enabled = true) ∧
    (toggleLoopById L.id s).preserveLoopOnNextSeek = false := by
  have hmem := List.mem_of_find?_eq_some hfind
  have heq : toggleLoopById L.id s = seek sm.time
      { s with
        loopState := { s.loopState with
          loops := s.loopState.loops.map (fun l =>
            if l.id == L.id then { l with enabled := true }
            else { l with enabled := false }),
          activeLoopId := some L.id },
        preserveLoopOnNextSeek := true } := by
    simp [toggleLoopById, hfind, hdis, hsm]
  have hst := toggleLoopById_of_disabled_loopState L.id s L hfind hdis
  refine ⟨?_, ?_, ?_, ?_⟩
  · rw [heq]
    exact seek_currentTime _ _
  · rw [hst]
  · rw [hst]
    refine ⟨{ L with enabled := true }, ?_, rfl, rfl⟩
    have h2 := List.mem_map_of_mem (fun l =>
      if l.id == L.id then { l with enabled := true }
      else { l with enabled := false }) hmem
    simpa using h2
  · rw [heq]
    exact seek_clears_preserve _ _

/-- A state with one disabled loop over markers at times 1 and 3, nothing
active. -/
def c4Store : AudioStore :=
  { loopState :=
      { markers := [{ id := "m1", time := 1, createdAt := 1 },
                    { id := "m2", time := 3, createdAt := 2 }],
        loops := [{ id := "L", startMarkerId := "m1", endMarkerId := "m2",
                    enabled := false, createdAt := 3 }],
        activeLoopId := none } }

/-- Witness for C4: toggling the disabled loop lands the transport on its
start marker time 1 with the loop active. -/
theorem C4_toggle_enables_and_seeks_witness :
    (toggleLoopById "L" c4Store).playbackState.currentTime = 1 ∧
    (toggleLoopById "L" c4Store).loopState.activeLoopId = some "L" ∧
    (toggleLoopById "L" c4Store).preserveLoopOnNextSeek = false :=
  let h := C4_toggle_enables_and_seeks c4Store
    { id := "L", startMarkerId := "m1", endMarkerId := "m2",
      enabled := false, createdAt := 3 }
    { id := "m1", time := 1, createdAt := 1 } (by decide) rfl (by decide)
  ⟨h.1, h.2.1, h.2.2.2⟩

/-- Claim C7: removeMarker(id) keeps exactly the markers with a different
id and exactly the loops referencing neither endpoint; activeLoopId
becomes null precisely when some removed loop was the active one, and is
otherwise untouched. -/
theorem C7_removeMarker_cascade (s : AudioStore) (id : String) :
    (∀ m, m ∈ (removeMarker id s).loopState.markers ↔
        m ∈ s.loopState.markers ∧ m.id ≠ id) ∧
    (∀ l, l ∈ (removeMarker id s).loopState.loops ↔
        l ∈ s.loopState.loops ∧ l.startMarkerId ≠ id ∧ l.endMarkerId ≠ id) ∧
    ((∃ l ∈ s.loopState.loops,
        (l.startMarkerId = id ∨ l.endMarkerId = id) ∧
        some l.id = s.loopState.activeLoopId) →
      (removeMarker id s).loopState.activeLoopId = none) ∧
    (¬(∃ l ∈ s.loopState.loops,
        (l.startMarkerId = id ∨ l.endMarkerId = id) ∧
        some l.id = s.loopState.activeLoopId) →
      (removeMarker id s).loopState.activeLoopId = s.loopState.activeLoopId) := by
  refine ⟨?_, ?_, ?_, ?_⟩
  · intro m
    rw [removeMarker_markers, List.mem_filter]
    simp [bne_iff_ne]
  · intro l
    rw [removeMarker_loops, List.mem_filter]
    simp [bne_iff_ne]
  · intro hex
    obtain ⟨l, hl, hor, hact⟩ := hex
    have hcond : (s.loopState.loops.filter
        (fun l => l.startMarkerId == id || l.endMarkerId == id)).any
        (fun l => some l.id == s.loopState.activeLoopId) = true := by
      refine List.any_eq_true.mpr ⟨l, List.mem_filter.mpr ⟨hl, ?_⟩, ?_⟩
      · rcases hor with h | h <;> simp [h]
      · rw [← hact]
        simp
    rw [removeMarker_active, if_pos hcond]
  · intro hnex
    have hcond : ¬ ((s.loopState.loops.filter
        (fun l => l.startMarkerId == id || l.endMarkerId == id)).any
        (fun l => some l.id == s.loopState.activeLoopId) = true) := by
      intro hany
      obtain ⟨l, hlmem, hlp⟩ := List.any_eq_true.mp hany
      obtain ⟨hl, hpred⟩ := List.mem_filter.mp hlmem
      refine hnex ⟨l, hl, ?_, ?_⟩
      · rcases Bool.or_eq_true_iff.mp hpred with h | h
        · exact Or.inl (by simpa using h)
        · exact Or.inr (by simpa using h)
      · simpa using hlp
    rw [removeMarker_active, if_neg hcond]

/-- The loop of c3Store, used by the C7 witness. -/
def c7Loop : Loop :=
  { id := "L", startMarkerId := "m1", endMarkerId := "m2",
    enabled := true, createdAt := 3 }

/-- Witness for C7 on a concrete state: removing marker m1 removes the loop
built on it and clears the active id. -/
theorem C7_removeMarker_cascade_witness :
    ((removeMarker "m1" c3Store).loopState.activeLoopId = none) ∧
    (∀ l, l ∈ (removeMarker "m1" c3Store).loopState.loops ↔
        l ∈ c3Store.loopState.loops ∧ l.startMarkerId ≠ "m1" ∧ l.endMarkerId ≠ "m1") :=
  let h := C7_removeMarker_cascade c3Store "m1"
  ⟨h.2.2.1 ⟨c7Loop, by decide, Or.inl rfl, rfl⟩, h.2.1⟩

/-- Claim C8: addTrack is rejected without any state change whenever the
track list already holds 8 or more tracks. -/
theorem C8_addTrack_cap (s : AudioStore) (tid pid f : String)
    (h : 8 ≤ s.tracks.length) :
    addTrack tid pid f s = s ∧
    (addTrack tid pid f s).tracks.length = s.tracks.length := by
  have heq : addTrack tid pid f s = s := by
    unfold addTrack
    rw [if_pos h]
  exact ⟨heq, by rw [heq]⟩

/-- A store holding eight tracks. -/
def c8Store : AudioStore :=
  { tracks := [{ id := "1", name := "a" }, { id := "2", name := "b" },
               { id := "3", name := "c" }, { id := "4", name := "d" },
               { id := "5", name := "e" }, { id := "6", name := "f" },
               { id := "7", name := "g" }, { id := "8", name := "h" }] }

/-- Witness for C8: adding a ninth track to an eight-track store changes
nothing and the count stays 8. -/
theorem C8_addTrack_cap_witness :
    c8Store.tracks.length = 8 ∧
    addTrack "t9" "p1" "ninth.mp3" c8Store = c8Store ∧
    (addTrack "t9" "p1" "ninth.mp3" c8Store).tracks.length = 8 :=
  let h := C8_addTrack_cap c8Store "t9" "p1" "ninth.mp3" (by decide)
  ⟨by decide, h.1, by rw [h.1]; decide⟩

/-- Claim C10: toggleRecordArm on an existing recordable track never touches
the markers, the loops or their enabled flags, or editMode; arming while a
loop is active only nulls activeLoopId and stashes it in loopBackup,
arming with no active loop leaves loop state untouched, and disarming only
restores activeLoopId from the backup when one is present. -/
theorem C10_toggleRecordArm_frame (s : AudioStore) (tid : String) (tr : AudioTrack)
    (hfind : s.tracks.find? (fun t => t.id == tid) = some tr)
    (hrec : tr.isRecordable = true) :
    (toggleRecordArm tid s).loopState.markers = s.loopState.markers ∧
    (toggleRecordArm tid s).loopState.loops = s.loopState.loops ∧
    (toggleRecordArm tid s).loopState.editMode = s.loopState.editMode ∧
    (tr.isArmed = false → s.loopState.activeLoopId.isSome = true →
      (toggleRecordArm tid s).loopState.activeLoopId = none ∧
      (toggleRecordArm tid s).loopBackup = s.loopState.activeLoopId) ∧
    (tr.isArmed = false → s.loopState.activeLoopId = none →
      (toggleRecordArm tid s).loopState = s.loopState ∧
      (toggleRecordArm tid s).loopBackup = s.loopBackup) ∧
    (tr.isArmed = true → ∀ b, s.loopBackup = some b →
      (toggleRecordArm tid s).loopState.activeLoopId = some b ∧
      (toggleRecordArm tid s).loopBackup = none) ∧
    (tr.isArmed = true → s.loopBackup = none →
      (toggleRecordArm tid s).loopState = s.loopState ∧
      (toggleRecordArm tid s).loopBackup = none) := by
  cases harm : tr.isArmed with
  | false =>
    cases hA : s.loopState.activeLoopId with
    | none => simp [toggleRecordArm, hfind, hrec, harm, hA]
    | some a => simp [toggleRecordArm, hfind, hrec, harm, hA]
  | true =>
    cases hB : s.loopBackup with
    | none => simp [toggleRecordArm, hfind, hrec, harm, hB]
    | some b => simp [toggleRecordArm, hfind, hrec, harm, hB]

/-- A store with a recordable unarmed track, an active enabled loop and an
empty backup slot. -/
def c10Store : AudioStore :=
  { tracks := [{ id := "t1", name := "rec", isRecordable := true }],
    loopState :=
      { markers := [{ id := "m1", time := 1, createdAt := 1 },
                    { id := "m2", time := 3, createdAt := 2 }],
        loops := [{ id := "L", startMarkerId := "m1", endMarkerId := "m2",
                    enabled := true, createdAt := 3 }],
        activeLoopId := some "L" } }

/-- Witness for C10: arming while loop L is active keeps markers and loops
intact, nulls the active id and stashes it in loopBackup. -/
theorem C10_toggleRecordArm_frame_witness :
    (toggleRecordArm "t1" c10Store).loopState.markers = c10Store.loopState.markers ∧
    (toggleRecordArm "t1" c10Store).loopState.loops = c10Store.loopState.loops ∧
    (toggleRecordArm "t1" c10Store).loopState.activeLoopId = none ∧
    (toggleRecordArm "t1" c10Store).loopBackup = some "L" :=
  let h := C10_toggleRecordArm_frame c10Store "t1"
    { id := "t1", name := "rec", isRecordable := true } rfl rfl
  ⟨h.1, h.2.1, (h.2.2.2.1 rfl rfl).1, (h.2.2.2.1 rfl rfl).2⟩

/-- The engine mute flag of the spec is the negation of its audibility. -/
lemma mutedSpec_eq_not_audibleSpec (tl : List AudioTrack) (t : AudioTrack) :
    mutedSpec tl t = !audibleSpec tl t := by
  cases hm : t.isMuted <;> cases hs : t.isSolo <;> cases ha : anyTrackSolo tl <;>
    simp [mutedSpec, audibleSpec, hm, hs, ha]

/-- The tracks after unmuteAll. -/
lemma unmuteAll_tracks (reg : List String) (s : AudioStore) :
    (unmuteAll reg s).1.tracks
      = s.tracks.map (fun t => { t with isMuted := false }) := rfl

/-- The engine commands issued by unmuteAll. -/
lemma unmuteAll_cmds (reg : List String) (s : AudioStore) :
    (unmuteAll reg s).2
      = (s.tracks.map (fun t => { t with isMuted := false })).filterMap (fun t =>
          if reg.contains t.id
          then some (t.id,
            (s.tracks.map (fun t => { t with isMuted := false })).any
              (fun t => t.isSolo) && !t.isSolo)
          else none) := rfl

/-- toggleSolo on an unknown id does nothing and issues no command. -/
lemma toggleSolo_of_find_none (reg : List String) (id : String) (s : AudioStore)
    (hf : s.tracks.find? (fun t => t.id == id) = none) :
    toggleSolo reg id s = (s, []) := by
  simp [toggleSolo, hf]

/-- The tracks after toggleSolo on a found track. -/
lemma toggleSolo_tracks (reg : List String) (id : String) (s : AudioStore)
    (track : AudioTrack) (hf : s.tracks.find? (fun t => t.id == id) = some track) :
    (toggleSolo reg id s).1.tracks
      = s.tracks.map (fun t =>
          if t.id == id then { t with isSolo := !track.isSolo } else t) := by
  simp only [toggleSolo, hf]
  rfl

/-- The engine commands issued by toggleSolo on a found track. -/
lemma toggleSolo_cmds (reg : List String) (id : String) (s : AudioStore)
    (track : AudioTrack) (hf : s.tracks.find? (fun t => t.id == id) = some track) :
    (toggleSolo reg id s).2
      = (s.tracks.map (fun t =>
          if t.id == id then { t with isSolo := !track.isSolo } else t)).filterMap
          (fun t =>
            if reg.contains t.id
            then some (t.id,
              t.isMuted ||
                ((s.tracks.map (fun u =>
                  if u.id == id then { u with isSolo := !track.isSolo } else u)).any
                  (fun u => u.isSolo) && !t.isSolo))
            else none) := by
  simp only [toggleSolo, hf]

/-- Claim C2: every engine mute command issued by toggleSolo or unmuteAll
carries, for the matching track of the updated list, exactly the flag
isMuted or (someTrackIsSolo and not isSolo) computed on that updated list;
equivalently the track is made audible iff it is not muted and either no
track is soloed or it is soloed. -/
theorem C2_engine_mute_policy (reg : List String) (s : AudioStore) (id : String) :
    (∀ p ∈ (toggleSolo reg id s).2, ∃ t ∈ (toggleSolo reg id s).1.tracks,
        t.id = p.1 ∧ p.2 = mutedSpec (toggleSolo reg id s).1.tracks t ∧
        (p.2 = false ↔ audibleSpec (toggleSolo reg id s).1.tracks t = true)) ∧
    (∀ p ∈ (unmuteAll reg s).2, ∃ t ∈ (unmuteAll reg s).1.tracks,
        t.id = p.1 ∧ p.2 = mutedSpec (unmuteAll reg s).1.tracks t ∧
        (p.2 = false ↔ audibleSpec (unmuteAll reg s).1.tracks t = true)) := by
  constructor
  · cases hf : s.tracks.find? (fun t => t.id == id) with
    | none =>
      intro p hp
      rw [toggleSolo_of_find_none reg id s hf] at hp
      cases hp
    | some track =>
      intro p hp
      rw [toggleSolo_cmds reg id s track hf] at hp
      obtain ⟨t, htmem, hteq⟩ := List.mem_filterMap.mp hp
      by_cases hr : reg.contains t.id = true
      · rw [if_pos hr] at hteq
        obtain rfl := Option.some_inj.mp hteq
        have hmu : ((t.id,
            t.isMuted ||
              ((s.tracks.map (fun u =>
                if u.id == id then { u with isSolo := !track.isSolo } else u)).any
                (fun u => u.isSolo) && !t.isSolo))).2
            = mutedSpec (s.tracks.map (fun u =>
                if u.id == id then { u with isSolo := !track.isSolo } else u)) t := rfl
        refine ⟨t, ?_, rfl, ?_, ?_⟩
        · rw [toggleSolo_tracks reg id s track hf]
          exact htmem
        · rw [toggleSolo_tracks reg id s track hf]
          exact hmu
        · rw [toggleSolo_tracks reg id s track hf, hmu, mutedSpec_eq_not_audibleSpec]
          simp
      · rw [if_neg hr] at hteq
        exact absurd hteq (by simp)
  · intro p hp
    rw [unmuteAll_cmds reg s] at hp
    obtain ⟨t, htmem, hteq⟩ := List.mem_filterMap.mp hp
    obtain ⟨u, hu, rfl⟩ := List.mem_map.mp htmem
    by_cases hr : reg.contains ({ u with isMuted := false } : AudioTrack).id = true
    · rw [if_pos hr] at hteq
      obtain rfl := Option.some_inj.mp hteq
      have hmu : ((({ u with isMuted := false } : AudioTrack).id,
          (s.tracks.map (fun t => { t with isMuted := false })).any
            (fun t => t.isSolo) && !({ u with isMuted := false } : AudioTrack).isSolo)).2
          = mutedSpec (s.tracks.map (fun t => { t with isMuted := false }))
              { u with isMuted := false } := rfl
      refine ⟨{ u with isMuted := false }, ?_, rfl, ?_, ?_⟩
      · rw [unmuteAll_tracks reg s]
        exact List.mem_map_of_mem _ hu
      · rw [unmuteAll_tracks reg s]
        exact hmu
      · rw [unmuteAll_tracks reg s, hmu, mutedSpec_eq_not_audibleSpec]
        simp
    · rw [if_neg hr] at hteq
      exact absurd hteq (by simp)

/-- Two unsoloed, unmuted tracks with registered engines. -/
def c2Store : AudioStore :=
  { tracks := [{ id := "a", name := "ta" }, { id := "b", name := "tb" }] }

/-- Witness for C2: soloing track a issues a mute command for track b whose
flag true equals the spec formula on the updated list, with b inaudible. -/
theorem C2_engine_mute_policy_witness :
    ∃ t ∈ (toggleSolo ["a", "b"] "a" c2Store).1.tracks,
      t.id = "b" ∧
      (true : Bool) = mutedSpec (toggleSolo ["a", "b"] "a" c2Store).1.tracks t ∧
      ((true : Bool) = false ↔
        audibleSpec (toggleSolo ["a", "b"] "a" c2Store).1.tracks t = true) :=
  (C2_engine_mute_policy ["a", "b"] c2Store "a").1 ("b", true) (by decide)

/-- The tracks after exclusiveSolo. -/
lemma exclusiveSolo_tracks (reg : List String) (id : String) (s : AudioStore) :
    (exclusiveSolo reg id s).1.tracks
      = s.tracks.map (fun t => { t with isSolo := t.id == id }) := rfl

/-- Claim C9: on a track list holding exactly one track with id X,
exclusiveSolo(X) followed by unmuteAll yields exactly one soloed track,
namely the one with id X, and no muted track. -/
theorem C9_exclusiveSolo_unmuteAll (regA regB : List String) (s : AudioStore)
    (X : String) (hX : s.tracks.countP (fun t => t.id == X) = 1) :
    ((unmuteAll regB (exclusiveSolo regA X s).1).1.tracks.countP
        (fun t => t.isSolo) = 1) ∧
    (∀ t ∈ (unmuteAll regB (exclusiveSolo regA X s).1).1.tracks,
        t.isSolo = (t.id == X)) ∧
    ((unmuteAll regB (exclusiveSolo regA X s).1).1.tracks.countP
        (fun t => t.isMuted) = 0) := by
  rw [unmuteAll_tracks, exclusiveSolo_tracks]
  refine ⟨?_, ?_, ?_⟩
  · rw [List.countP_map, List.countP_map]
    rw [List.countP_congr (q := fun t => t.id == X) (fun a _ => by simp [Function.comp])]
    exact hX
  · intro t ht
    obtain ⟨v, hv, rfl⟩ := List.mem_map.mp ht
    obtain ⟨w, hw, rfl⟩ := List.mem_map.mp hv
    rfl
  · rw [List.countP_map, List.countP_map]
    apply List.countP_eq_zero.mpr
    intro a _
    simp [Function.comp]

/-- Three tracks, the first muted, the last soloed, before the sequence. -/
def c9Store : AudioStore :=
  { tracks := [{ id := "a", name := "ta", isMuted := true },
               { id := "b", name := "tb" },
               { id := "c", name := "tc", isSolo := true }] }

/-- Witness for C9 at a concrete three-track store. -/
theorem C9_exclusiveSolo_unmuteAll_witness :
    ((unmuteAll [] (exclusiveSolo [] "a" c9Store).1).1.tracks.countP
        (fun t => t.isSolo) = 1) ∧
    ((unmuteAll [] (exclusiveSolo [] "a" c9Store).1).1.tracks.countP
        (fun t => t.isMuted) = 0) :=
  let h := C9_exclusiveSolo_unmuteAll [] [] c9Store "a" (by decide)
  ⟨h.1, h.2.2⟩

/-- createLoop under the cap with both markers found: appends one disabled
loop with the endpoints ordered by the strict time comparison of the
source. -/
lemma createLoop_of_found (s : AudioStore) (nid : String) (now : Nat)
    (a b : String) (ma mb : Marker)
    (hlen : s.loopState.loops.length < 10)
    (ha2 : s.loopState.markers.find? (fun m => m.id == a) = some ma)
    (hb2 : s.loopState.markers.find? (fun m => m.id == b) = some mb) :
    createLoop nid now a b s = (nid, { s with loopState := { s.loopState with
      loops := s.loopState.loops ++ [{
        id := nid,
        startMarkerId := (if ma.time < mb.time then (a, b) else (b, a)).1,
        endMarkerId := (if ma.time < mb.time then (a, b) else (b, a)).2,
        enabled := false,
        createdAt := now }] } }) := by
  have hguard : ¬ (s.loopState.loops.length ≥ 10) := by omega
  simp [createLoop, hguard, ha2, hb2]

/-- Claim C6, amended: createLoop returns the empty id and changes nothing
at the 10-loop cap or on an unknown marker id; otherwise it appends
exactly one disabled loop whose endpoints are ordered by marker time, so
that time(startMarkerId) is at most time(endMarkerId), strictly when the
two marker times differ.  With equal marker times the endpoints are
stored swapped and the times are equal, so the strict inequality of the
original claim fails (see the counterexample theorem). -/
theorem C6_createLoop_orders_endpoints (s : AudioStore) (nid : String) (now : Nat)
    (a b : String) :
    (10 ≤ s.loopState.loops.length → createLoop nid now a b s = ("", s)) ∧
    (s.loopState.loops.length < 10 →
      (s.loopState.markers.find? (fun m => m.id == a) = none ∨
       s.loopState.markers.find? (fun m => m.id == b) = none) →
      createLoop nid now a b s = ("", s)) ∧
    (∀ ma mb : Marker, s.loopState.loops.length < 10 →
      s.loopState.markers.find? (fun m => m.id == a) = some ma →
      s.loopState.markers.find? (fun m => m.id == b) = some mb →
      (createLoop nid now a b s).1 = nid ∧
      ∃ nl : Loop,
        (createLoop nid now a b s).2.loopState.loops = s.loopState.loops ++ [nl] ∧
        nl.id = nid ∧ nl.enabled = false ∧
        (createLoop nid now a b s).2.loopState.markers = s.loopState.markers ∧
        ∃ ms me : Marker,
          s.loopState.markers.find? (fun m => m.id == nl.startMarkerId) = some ms ∧
          s.loopState.markers.find? (fun m => m.id == nl.endMarkerId) = some me ∧
          ms.time ≤ me.time ∧ (ma.time ≠ mb.time → ms.time < me.time)) := by
  refine ⟨?_, ?_, ?_⟩
  · intro h
    unfold createLoop
    rw [if_pos h]
  · intro hlen hnone
    have hguard : ¬ (s.loopState.loops.length ≥ 10) := by omega
    cases ha2 : s.loopState.markers.find? (fun m => m.id == a) with
    | none =>
      cases hb2 : s.loopState.markers.find? (fun m => m.id == b) with
      | none => simp [createLoop, hguard, ha2, hb2]
      | some mb => simp [createLoop, hguard, ha2, hb2]
    | some ma =>
      cases hb2 : s.loopState.markers.find? (fun m => m.id == b) with
      | none => simp [createLoop, hguard, ha2, hb2]
      | some mb =>
        exfalso
        rcases hnone with h | h
        · rw [ha2] at h
          cases h
        · rw [hb2] at h
          cases h
  · intro ma mb hlen ha2 hb2
    rw [createLoop_of_found s nid now a b ma mb hlen ha2 hb2]
    by_cases hlt : ma.time < mb.time
    · refine ⟨rfl, ?_⟩
      refine Exists.intro
        { id := nid, startMarkerId := a, endMarkerId := b,
          enabled := false, createdAt := now } ?_
      refine ⟨?_, rfl, rfl, rfl, ma, mb, ha2, hb2, le_of_lt hlt, fun _ => hlt⟩
      simp [hlt]
    · refine ⟨rfl, ?_⟩
      refine Exists.intro
        { id := nid, startMarkerId := b, endMarkerId := a,
          enabled := false, createdAt := now } ?_
      refine ⟨?_, rfl, rfl, rfl, mb, ma, hb2, ha2, not_lt.mp hlt, ?_⟩
      · simp [hlt]
      · intro hne
        exact lt_of_le_of_ne (not_lt.mp hlt) (fun he => hne he.symm)

/-- Two distinct markers sharing the same time 5. -/
def c6Store : AudioStore :=
  { loopState := { markers := [{ id := "m1", time := 5, createdAt := 1 },
                               { id := "m2", time := 5, createdAt := 2 }] } }

/-- Counterexample to C6 as stated: creating a loop over two markers with
equal times succeeds (id returned), but the created loop's start and end
marker times are both 5, so time(startMarkerId) < time(endMarkerId) is
false. -/
theorem C6_equal_time_counterexample :
    ((createLoop "L1" 3 "m1" "m2" c6Store).2.loopState.loops.map (fun l =>
      ((c6Store.loopState.markers.find? (fun m => m.id == l.startMarkerId)).map
          Marker.time,
       (c6Store.loopState.markers.find? (fun m => m.id == l.endMarkerId)).map
          Marker.time)))
      = [(some 5, some 5)] ∧
    (createLoop "L1" 3 "m1" "m2" c6Store).1 = "L1" ∧
    ¬ ((5 : Rat) < 5) := by decide

/-- Witness for C6 at the concrete equal-time store. -/
theorem C6_createLoop_orders_endpoints_witness :
    (createLoop "L1" 3 "m1" "m2" c6Store).1 = "L1" ∧
    ∃ nl : Loop,
      (createLoop "L1" 3 "m1" "m2" c6Store).2.loopState.loops
        = c6Store.loopState.loops ++ [nl] ∧
      nl.id = "L1" ∧ nl.enabled = false ∧
      (createLoop "L1" 3 "m1" "m2" c6Store).2.loopState.markers
        = c6Store.loopState.markers ∧
      ∃ ms me : Marker,
        c6Store.loopState.markers.find? (fun m => m.id == nl.startMarkerId) = some ms ∧
        c6Store.loopState.markers.find? (fun m => m.id == nl.endMarkerId) = some me ∧
        ms.time ≤ me.time ∧ ((5 : Rat) ≠ (5 : Rat) → ms.time < me.time) :=
  (C6_createLoop_orders_endpoints c6Store "L1" 3 "m1" "m2").2.2
    { id := "m1", time := 5, createdAt := 1 }
    { id := "m2", time := 5, createdAt := 2 }
    (by decide) (by decide) (by decide)

instance : IsTotal Marker (fun a b => a.time ≤ b.time) :=
  ⟨fun a b => le_total a.time b.time⟩

instance : IsTrans Marker (fun a b => a.time ≤ b.time) :=
  ⟨fun _ _ _ hab hbc => le_trans hab hbc⟩

/-- addMarker keeps the marker list sorted and within the cap. -/
lemma markerInv_addMarker (nid : String) (now : Nat) (t : Rat)
    (lab : Option String) (s : AudioStore) (h : MarkerInv s) :
    MarkerInv (addMarker nid now t lab s).2 := by
  by_cases hcap : s.loopState.markers.length ≥ 20
  · unfold addMarker
    rw [if_pos hcap]
    exact h
  · unfold addMarker
    rw [if_neg hcap]
    constructor
    · exact List.sorted_insertionSort _ _
    · show (List.insertionSort _ _).length ≤ 20
      rw [List.length_insertionSort, List.length_append]
      simp only [List.length_cons, List.length_nil]
      omega

/-- updateMarkerTime keeps the marker list sorted and within the cap. -/
lemma markerInv_updateMarkerTime (id : String) (t : Rat) (s : AudioStore)
    (h : MarkerInv s) : MarkerInv (updateMarkerTime id t s) := by
  constructor
  · exact List.sorted_insertionSort _ _
  · show (List.insertionSort _ _).length ≤ 20
    rw [List.length_insertionSort, List.length_map]
    exact h.2

/-- Claim C5, amended: from a state whose markers are sorted with at most
20 entries, any sequence of addMarker and updateMarkerTime operations
keeps the list sorted ascending by time with at most 20 markers; addMarker
returns the empty id and changes nothing when 20 markers exist, and
otherwise returns the fresh id and inserts exactly one marker carrying the
requested time clamped to the track duration.  The original tie clause
(ties ordered by creation) does not survive updateMarkerTime, see the
counterexample theorem. -/
theorem C5_marker_invariant (s : AudioStore) (ops : List MOp) (h : MarkerInv s) :
    MarkerInv (applyMOps ops s) ∧
    (∀ nid now t lab, 20 ≤ s.loopState.markers.length →
      addMarker nid now t lab s = ("", s)) ∧
    (∀ nid now t lab, s.loopState.markers.length < 20 →
      (addMarker nid now t lab s).1 = nid ∧
      (addMarker nid now t lab s).2.loopState.markers.Perm
        ({ id := nid, time := max 0 (min t s.playbackState.duration),
           createdAt := now, label := lab } :: s.loopState.markers) ∧
      (addMarker nid now t lab s).2.loopState.markers.length
        = s.loopState.markers.length + 1) := by
  refine ⟨?_, ?_, ?_⟩
  · induction ops generalizing s with
    | nil => exact h
    | cons op rest ih =>
      cases op with
      | add nid now t lab => exact ih _ (markerInv_addMarker nid now t lab s h)
      | update id t => exact ih _ (markerInv_updateMarkerTime id t s h)
  · intro nid now t lab hcap
    unfold addMarker
    rw [if_pos hcap]
  · intro nid now t lab hlen
    have hcap : ¬ (s.loopState.markers.length ≥ 20) := by omega
    unfold addMarker
    rw [if_neg hcap]
    refine ⟨rfl, ?_, ?_⟩
    · exact (List.perm_insertionSort _ _).trans List.perm_append_comm
    · show (List.insertionSort _ _).length = _
      rw [List.length_insertionSort, List.length_append]
      simp

/-- An empty piece with duration 10. -/
def c5Store : AudioStore :=
  { playbackState := { duration := 10 } }

/-- Witness for C5: after an add and an update the invariant holds, and an
add below the cap returns the fresh id with one more marker. -/
theorem C5_marker_invariant_witness :
    MarkerInv (applyMOps [MOp.add "m1" 1 5 none, MOp.update "m1" 7] c5Store) ∧
    (addMarker "m2" 3 99 none c5Store).1 = "m2" ∧
    (addMarker "m2" 3 99 none c5Store).2.loopState.markers.length
      = c5Store.loopState.markers.length + 1 :=
  let h := C5_marker_invariant c5Store
    [MOp.add "m1" 1 5 none, MOp.update "m1" 7] (by decide)
  ⟨h.1, (h.2.2 "m2" 3 99 none (by decide)).1,
    (h.2.2 "m2" 3 99 none (by decide)).2.2⟩

/-- Counterexample to the tie clause of C5 as stated: adding a marker at
time 5 and then one at time 2, then moving the second to time 5, leaves
the two markers tied at time 5 with the later-created one first, so ties
are not in insertion (creation) order although the list is sorted. -/
theorem C5_tie_order_counterexample :
    ((applyMOps [MOp.add "m1" 1 5 none, MOp.add "m2" 2 2 none,
        MOp.update "m2" 5] c5Store).loopState.markers.map
      (fun m => (m.id, m.time, m.createdAt)))
      = [("m2", 5, 2), ("m1", 5, 1)] ∧
    MSorted (applyMOps [MOp.add "m1" 1 5 none, MOp.add "m2" 2 2 none,
        MOp.update "m2" 5] c5Store).loopState.markers ∧
    ¬ TiesByInsertion (applyMOps [MOp.add "m1" 1 5 none, MOp.add "m2" 2 2 none,
        MOp.update "m2" 5] c5Store).loopState.markers := by decide
